import Mathlib

/-!
Verification of the DHCP lease-acquisition subsystem of cloud-init
(`cloudinit/net/dhcp.py`): the three concrete client drivers
(`IscDhclient`, `Dhcpcd`, `Udhcpc`), their static-route grammars, the
lease parsers/normalizers, and the process-supervision control flow of
`dhcp_discovery`.

Pure Python string manipulation is embedded as executable functions over
`String` / `List Char`.  Stateful/effectful code (`subp.subp`, file
reads, pid polling) is embedded as deterministic functions of an explicit
environment record that fixes the outcome of every external interaction,
with raised exceptions represented by `Except` error values and the
signals sent by `os.kill` collected in an explicit trace.
-/

/- ===== Python string primitives =====
Each helper models the exact Python string operation used in dhcp.py. -/

/-- Python whitespace characters recognised by `str.strip` / `str.split()`. -/
def wsChars : List Char := [' ', '\t', '\n', '\r', '\x0b', '\x0c']

def isWs (c : Char) : Bool := wsChars.contains c

/-- `str.strip()` on the character list: drop whitespace from both ends. -/
def pyStripL (l : List Char) : List Char :=
  ((l.dropWhile isWs).reverse.dropWhile isWs).reverse

def pyStrip (s : String) : String := ⟨pyStripL s.data⟩

/-- `str.rstrip(";")`: drop trailing semicolon characters. -/
def rstripSemi (l : List Char) : List Char :=
  (l.reverse.dropWhile (fun c => c = ';')).reverse

/-- `str.split(sep)` for a set of single-character separators, keeping
empty pieces, as `re.split(r"[, .]", s)` and `str.split("\n")` do. -/
def splitOnChars (seps : List Char) : List Char → List (List Char)
  | [] => [[]]
  | c :: t =>
    let r := splitOnChars seps t
    if seps.contains c then [] :: r
    else
      match r with
      | h :: t2 => (c :: h) :: t2
      | [] => [[c]]

def splitOnChar (sep : Char) (l : List Char) : List (List Char) :=
  splitOnChars [sep] l

/-- `str.split(sep, 1)`: split at the first occurrence only. -/
def splitFirstAux (sep : Char) : List Char → Option (List Char × List Char)
  | [] => none
  | c :: t =>
    if c = sep then some ([], t)
    else (splitFirstAux sep t).map (fun p => (c :: p.1, p.2))

def splitFirst (sep : Char) (l : List Char) : List (List Char) :=
  match splitFirstAux sep l with
  | none => [l]
  | some (a, b) => [a, b]

/-- `str.replace(c, "")` for a one-character pattern: drop every occurrence. -/
def removeChar (c : Char) (l : List Char) : List Char :=
  l.filter (fun x => x ≠ c)

/-- Boolean prefix test on character lists. -/
def isPre : List Char → List Char → Bool
  | [], _ => true
  | _ :: _, [] => false
  | a :: as, b :: bs => if a = b then isPre as bs else false

/-- Index of the first occurrence of `pat` in `l`, scanning left to right
(the search the regex engine performs for a literal pattern). -/
def findSub (pat : List Char) : List Char → Option Nat
  | [] => if isPre pat [] then some 0 else none
  | c :: t =>
    if isPre pat (c :: t) then some 0
    else (findSub pat t).map (· + 1)

/-- `pat in s`: Python substring containment. -/
def containsSub (pat l : List Char) : Bool := (findSub pat l).isSome

/-- `str.replace(pat, "")` for a multi-character pattern: remove
non-overlapping occurrences left to right.  Fuel is the list length,
which suffices because every step consumes at least one character. -/
def removeSubAux (pat : List Char) : Nat → List Char → List Char
  | 0, l => l
  | _ + 1, [] => []
  | fuel + 1, c :: t =>
    if isPre pat (c :: t) then removeSubAux pat fuel ((c :: t).drop pat.length)
    else c :: removeSubAux pat fuel t

def removeSub (pat l : List Char) : List Char := removeSubAux pat l.length l

/-- `".".join(parts)`. -/
def joinDots : List String → String
  | [] => ""
  | [x] => x
  | x :: rest => x ++ "." ++ joinDots rest

def digitVal (c : Char) : Nat := c.toNat - 48

def isDigitCh (c : Char) : Bool := '0' ≤ c ∧ c ≤ '9'

def digitsVal (l : List Char) : Nat :=
  l.foldl (fun a c => a * 10 + digitVal c) 0

/-- Python `int(s)`: optional surrounding whitespace, optional sign, then
one or more ASCII decimal digits; anything else raises `ValueError`,
modelled as `none`. -/
def pyInt (s : String) : Option Int :=
  match pyStripL s.data with
  | '-' :: rest =>
    if rest ≠ [] ∧ rest.all isDigitCh then some (-(digitsVal rest : Int)) else none
  | '+' :: rest =>
    if rest ≠ [] ∧ rest.all isDigitCh then some (digitsVal rest : Int) else none
  | cs =>
    if cs ≠ [] ∧ cs.all isDigitCh then some (digitsVal cs : Int) else none

def digitChar : Nat → Char
  | 0 => '0' | 1 => '1' | 2 => '2' | 3 => '3' | 4 => '4'
  | 5 => '5' | 6 => '6' | 7 => '7' | 8 => '8' | _ => '9'

def natToStrAux : Nat → Nat → List Char
  | 0, _ => []
  | fuel + 1, n =>
    if n < 10 then [digitChar n]
    else natToStrAux fuel (n / 10) ++ [digitChar (n % 10)]

def natToStr (n : Nat) : String := ⟨natToStrAux (n + 1) n⟩

/-- Python `str(i)` for an integer. -/
def intToStr : Int → String
  | .ofNat n => natToStr n
  | .negSucc m => "-" ++ natToStr (m + 1)

/-- Python `str.split()` with no argument: split on whitespace runs and
drop empty pieces. -/
def pySplitWs (s : String) : List String :=
  ((splitOnChars wsChars s.data).filter (fun l => l ≠ [])).map
    (fun l => (⟨l⟩ : String))

/- ===== Python dict model =====
A Python `dict` with string keys/values is an association list with
first-occurrence key positions and last-write-wins values. -/

/-- Canonical lease mapping: string keys to string values, insertion
ordered, as produced by Python `dict`. -/
abbrev Dict := List (String × String)

/-- `d[k] = v`: update in place when the key exists, append otherwise. -/
def pyInsert : Dict → String → String → Dict
  | [], k, v => [(k, v)]
  | (k0, v0) :: t, k, v =>
    if k0 = k then (k0, v) :: t else (k0, v0) :: pyInsert t k v

/-- `d.get(k)` / `k in d`: first binding of the key. -/
def pyLookup : Dict → String → Option String
  | [], _ => none
  | (k0, v0) :: t, k => if k0 = k then some v0 else pyLookup t k

/-- Removal of a key, as done by `d.pop(k)` after its value is read. -/
def pyErase : Dict → String → Dict
  | [], _ => []
  | (k0, v0) :: t, k => if k0 = k then t else (k0, v0) :: pyErase t k

/-- `if src in d: d[dst] = d.pop(src)` — the rename step of the dhcpcd
lease normalizer. -/
def pyRename (d : Dict) (src dst : String) : Dict :=
  match pyLookup d src with
  | none => d
  | some v => pyInsert (pyErase d src) dst v

/-- `dict(pairs)` / dict comprehension over a pair list. -/
def pyFromList (l : List (String × String)) : Dict :=
  l.foldl (fun d kv => pyInsert d kv.1 kv.2) []

/-- Python errors raised by the embedded code. -/
inductive PyErr
  | valueError
  | typeError
  | fileNotFound
  deriving DecidableEq, Repr

/-- `dict(list_of_lists)`: every element must be a 2-element list, else
`ValueError`; elements are inserted left to right. -/
def pyDictOfListsAux (acc : Dict) : List (List String) → Except PyErr Dict
  | [] => .ok acc
  | [k, v] :: rest => pyDictOfListsAux (pyInsert acc k v) rest
  | _ :: _ => .error .valueError

def pyDictOfLists (ls : List (List String)) : Except PyErr Dict :=
  pyDictOfListsAux [] ls

/- ===== IscDhclient.parse_leases / get_newest_lease ===== -/

/-- The literal prefix of the lease regex `lease {(?P<lease>.*?)}\n`. -/
def headerL : List Char := "lease \x7b".data

/-- The literal suffix of the lease regex. -/
def footerL : List Char := "\x7d\n".data

/-- `re.findall(r"lease {(.*?)}\n", content, re.DOTALL)`: repeatedly find
the next `lease {`, lazily capture up to the first following `}\n`, and
continue after it.  Fuel is the content length, which suffices because
every match consumes at least nine characters. -/
def scanBlocksAux : Nat → List Char → List (List Char)
  | 0, _ => []
  | fuel + 1, l =>
    match findSub headerL l with
    | none => []
    | some i =>
      let r := l.drop (i + headerL.length)
      match findSub footerL r with
      | none => []
      | some j => r.take j :: scanBlocksAux fuel (r.drop (j + footerL.length))

def scanBlocks (l : List Char) : List (List Char) := scanBlocksAux l.length l

def optionSpace : List Char := "option ".data

/-- The per-block loop of `IscDhclient.parse_leases`: split the block on
`;`, strip each line, drop double quotes and every `"option "`
occurrence, keep non-empty lines, split each at the first space, and
build a dict (raising `ValueError` on a line with no space). -/
def parseBlockL (b : List Char) : Except PyErr Dict :=
  let lines := (splitOnChar ';' b).map
    (fun p => removeSub optionSpace (removeChar '"' (pyStripL p)))
  pyDictOfLists ((lines.filter (fun l => l ≠ [])).map
    (fun l => (splitFirst ' ' l).map (fun cs => (⟨cs⟩ : String))))

/-- The `for lease in lease_regex.findall(...)` loop: parse each block in
order, propagating the first raised error. -/
def mapExceptBlocks : List (List Char) → Except PyErr (List Dict)
  | [] => .ok []
  | b :: rest =>
    match parseBlockL b with
    | .error e => .error e
    | .ok d =>
      match mapExceptBlocks rest with
      | .error e => .error e
      | .ok ds => .ok (d :: ds)

/-- `IscDhclient.parse_leases`: empty content yields `[]`, otherwise the
dicts of all regex-matched `lease { ... }` blocks, most recent last. -/
def parseLeases (content : String) : Except PyErr (List Dict) :=
  if content.data.isEmpty then .ok []
  else mapExceptBlocks (scanBlocks content.data)

/-- Errors of the discovery layer: the `NoDHCPLeaseError` taxonomy plus
uncaught Python exceptions. -/
inductive DErr
  | noLease
  | invalidLease
  | processLookup
  | pyErr (e : PyErr)
  deriving DecidableEq, Repr

/-- `IscDhclient.lease_file`, fixed in `__init__`. -/
def iscLeasePath : String := "/run/dhclient.lease"

/-- `IscDhclient.get_newest_lease`: read the fixed lease file (a missing
file is suppressed), parse, and return the last lease, `{}` when there
is none.  `fs` models the filesystem; `util.load_file` (not under src/)
is modelled from the spec as returning the file content and raising
`FileNotFoundError` when absent, exactly the exception the source
suppresses.  The `interface` argument is unused, as in the source. -/
def iscGetNewestLease (fs : String → Option String) (_interface : String) :
    Except DErr Dict :=
  match fs iscLeasePath with
  | none => .ok []
  | some content =>
    if content.data.isEmpty then .ok []
    else
      match parseLeases content with
      | .error e => .error (.pyErr e)
      | .ok ls =>
        match ls.getLast? with
        | none => .ok []
        | some d => .ok d

/- ===== Static-route grammars ===== -/

/-- Token list of `IscDhclient.parse_static_routes`: strip a trailing
semicolon, split on any of `,`, ` `, `.`, keep non-empty tokens. -/
def iscTokens (routes : String) : List String :=
  ((splitOnChars [',', ' ', '.'] (rstripSemi routes.data)).filter
    (fun l => l ≠ [])).map (fun l => (⟨l⟩ : String))

/-- The cursor loop of `IscDhclient.parse_static_routes`.  One step reads
a prefix-length token with `int()` (`ValueError` when non-numeric,
modelled as `.error`), then consumes the bucket-dependent number of
destination octets and four gateway octets; a truncated or out-of-range
route stops the loop and returns the routes accumulated so far.  Fuel is
the token count: every step consumes at least one token. -/
def iscRouteLoop : Nat → List String → List (String × String) →
    Except PyErr (List (String × String))
  | 0, _, acc => .ok acc
  | _ + 1, [], acc => .ok acc
  | fuel + 1, tok :: rest, acc =>
    match pyInt tok with
    | none => .error .valueError
    | some n =>
      if 25 ≤ n ∧ n < 33 then
        if rest.length < 8 then .ok acc
        else iscRouteLoop fuel (rest.drop 8)
          (acc ++ [(joinDots (rest.take 4) ++ "/" ++ intToStr n,
                    joinDots ((rest.drop 4).take 4))])
      else if 17 ≤ n ∧ n < 25 then
        if rest.length < 7 then .ok acc
        else iscRouteLoop fuel (rest.drop 7)
          (acc ++ [(joinDots (rest.take 3 ++ ["0"]) ++ "/" ++ intToStr n,
                    joinDots ((rest.drop 3).take 4))])
      else if 9 ≤ n ∧ n < 17 then
        if rest.length < 6 then .ok acc
        else iscRouteLoop fuel (rest.drop 6)
          (acc ++ [(joinDots (rest.take 2 ++ ["0", "0"]) ++ "/" ++ intToStr n,
                    joinDots ((rest.drop 2).take 4))])
      else if 1 ≤ n ∧ n < 9 then
        if rest.length < 5 then .ok acc
        else iscRouteLoop fuel (rest.drop 5)
          (acc ++ [(joinDots (rest.take 1 ++ ["0", "0", "0"]) ++ "/" ++ intToStr n,
                    joinDots ((rest.drop 1).take 4))])
      else if n = 0 then
        if rest.length < 4 then .ok acc
        else iscRouteLoop fuel (rest.drop 4)
          (acc ++ [("0.0.0.0" ++ "/" ++ intToStr n, joinDots (rest.take 4))])
      else .ok acc

/-- `IscDhclient.parse_static_routes` (RFC-3442 token grammar). -/
def iscParseStaticRoutes (routes : String) : Except PyErr (List (String × String)) :=
  iscRouteLoop (iscTokens routes).length (iscTokens routes) []

/-- `l[::2]`: every other element starting at index 0. -/
def evens : List String → List String
  | [] => []
  | [a] => [a]
  | a :: _ :: rest => a :: evens rest

/-- `l[1::2]`: every other element starting at index 1. -/
def odds (l : List String) : List String := evens (l.drop 1)

/-- `Dhcpcd.parse_static_routes` (pair grammar): whitespace-split, then
`zip(tokens[::2], tokens[1::2])`; an empty token list yields `[]` (with
a malformed-routes warning logged). -/
def dhcpcdParseStaticRoutes (routes : String) : List (String × String) :=
  let static_routes := pySplitWs routes
  match static_routes with
  | [] => []
  | _ :: _ => (evens static_routes).zip (odds static_routes)

/-- `Udhcpc.parse_static_routes`: same pair grammar, without the log. -/
def udhcpcParseStaticRoutes (routes : String) : List (String × String) :=
  let static_routes := pySplitWs routes
  match static_routes with
  | [] => []
  | _ :: _ => (evens static_routes).zip (odds static_routes)

/-- Consecutive `(destination, gateway)` pairs in input order, the
trailing unpaired token (if any) dropped.  This is the independent
statement the zip-of-slices implementation is compared against. -/
def pairUp : List String → List (String × String)
  | a :: b :: rest => (a, b) :: pairUp rest
  | _ => []

/- ===== Dhcpcd lease parsing / normalization ===== -/

/-- `key.replace("_", "-")` on a key string. -/
def underscoreToHyphen (s : String) : String :=
  ⟨s.data.map (fun c => if c = '_' then '-' else c)⟩

/-- The key-rewriting performed by `Dhcpcd.parse_dhcpcd_lease` after the
raw dump is read: rewrite underscore keys to hyphen keys (a dict
comprehension), then rename `ip-address` to `fixed-address` and
`classless-static-routes` to `static_routes`. -/
def dhcpcdNormalizeKeys (d : Dict) : Dict :=
  let hyphened := pyFromList (d.map (fun kv => (underscoreToHyphen kv.1, kv.2)))
  pyRename (pyRename hyphened "ip-address" "fixed-address")
    "classless-static-routes" "static_routes"

/-- `Dhcpcd.parse_dhcpcd_lease`: strip the dump, drop single quotes,
split into lines, split each line at `=` and build a dict (`ValueError`
when a line does not split into exactly two parts), set `interface`,
then normalize the keys. -/
def parseDhcpcdLease (lease_dump : String) (interface : String) :
    Except PyErr Dict :=
  let lines := splitOnChar '\n' (removeChar '\'' (pyStripL lease_dump.data))
  match pyDictOfLists (lines.map (fun a =>
      (splitOnChar '=' a).map (fun cs => (⟨cs⟩ : String)))) with
  | .error e => .error e
  | .ok lease =>
    .ok (dhcpcdNormalizeKeys (pyInsert lease "interface" interface))

/-- `Dhcpcd.get_newest_lease`: run `dhcpcd --dumplease --ipv4only` via
`subp` (its raised `ProcessExecutionError` is converted to
`NoDHCPLeaseError`) and parse the dump; a `ValueError` raised by the
parse propagates uncaught.  `dump` is the outcome of the external
command. -/
def dhcpcdGetNewestLease (dump : Except Unit String) (interface : String) :
    Except DErr Dict :=
  match dump with
  | .error _ => .error .noLease
  | .ok s =>
    match parseDhcpcdLease s interface with
    | .error e => .error (.pyErr e)
    | .ok d => .ok d

/-- `Udhcpc.get_newest_lease`:
`return util.load_json(util.load_file(self.lease_file))` with no
exception handling.  `self.lease_file` is `None` until a discovery runs
(`load_file(None)` raises `TypeError`); a set path whose file is absent
makes `load_file` raise `FileNotFoundError`.  `util.load_file` and
`util.load_json` are not under src/; they are modelled from the spec as
a filesystem read raising on a missing file and an abstract JSON parser
`parseJson`.  The `interface` argument is unused, as in the source. -/
def udhcpcGetNewestLease (leaseFile : Option String)
    (fs : String → Option String) (parseJson : String → Except PyErr Dict)
    (_interface : String) : Except DErr Dict :=
  match leaseFile with
  | none => .error (.pyErr .typeError)
  | some p =>
    match fs p with
    | none => .error (.pyErr .fileNotFound)
    | some content =>
      match parseJson content with
      | .error e => .error (.pyErr e)
      | .ok d => .ok d

/- ===== IscDhclient.dhcp_discovery ===== -/

/-- The stale-artifact cleanup state: whether the pid file and the lease
file exist at the attempt's fixed paths. -/
structure IscFiles where
  pidFile : Bool
  leaseFile : Bool
  deriving DecidableEq, Repr

/-- The prepare step of `IscDhclient.dhcp_discovery`:

```
with suppress(FileNotFoundError):
    os.remove(pid_file)
    os.remove(self.lease_file)
```

Both removes run inside one `suppress` block, so a `FileNotFoundError`
raised by the first `os.remove` (pid file absent) abandons the block and
the lease-file remove never runs. -/
def iscPrepare (fs : IscFiles) : IscFiles :=
  if fs.pidFile then { pidFile := false, leaseFile := false }
  else fs

/-- `int(self.timeout / sleep_time)` with `timeout = 10`,
`sleep_time = 0.01`: the pid-poll budget of both drivers. -/
def sleepCycles : Nat := 1000

/-- Environment of one `IscDhclient.dhcp_discovery` attempt, fixing every
external interaction after the prepare/link-up steps: the `subp` spawn
outcome, the files `util.wait_for_files` reported missing (modelled from
the spec: it returns the subset of the pid/lease files that never
appeared within `maxwait`), the pid-file content seen at each poll cycle
(`none` = `FileNotFoundError`), the `get_proc_ppid` collaborator, and
the filesystem state read by the final `get_newest_lease`. -/
structure IscEnv where
  spawn : Except Unit (String × String)
  missing : List String
  pidRead : Nat → Option String
  ppid : Int → Int
  fsEnd : String → Option String

/-- The daemonization-wait loop of `IscDhclient.dhcp_discovery`: each
cycle reads the pid file (`FileNotFoundError` and `ValueError` are
caught and the cycle repeats); when the pid parses and its parent pid is
1, the dhclient is killed with SIGKILL and the loop stops.  Returns the
`daemonized` flag and the trace of pids killed. -/
def iscWaitLoop (env : IscEnv) : Nat → Nat → Bool × List Int
  | 0, _ => (false, [])
  | fuel + 1, i =>
    match env.pidRead i with
    | none => iscWaitLoop env fuel (i + 1)
    | some content =>
      match pyInt (pyStrip content) with
      | none => iscWaitLoop env fuel (i + 1)
      | some pid =>
        if env.ppid pid = 1 then (true, [pid])
        else iscWaitLoop env fuel (i + 1)

/-- `IscDhclient.dhcp_discovery` after prepare/link-up: spawn dhclient
(`ProcessExecutionError` becomes `NoDHCPLeaseError`); if
`wait_for_files` reports missing artifacts, return `{}`; otherwise run
the daemonization-wait loop, then read the newest lease, returning it if
non-empty and raising `InvalidDHCPLeaseFileError` otherwise.  The result
pairs the returned/raised outcome with the trace of SIGKILLs sent. -/
def iscDhcpDiscovery (env : IscEnv) (interface : String) :
    Except DErr Dict × List Int :=
  match env.spawn with
  | .error _ => (.error .noLease, [])
  | .ok _ =>
    match env.missing with
    | _ :: _ => (.ok [], [])
    | [] =>
      let r := iscWaitLoop env sleepCycles 0
      match iscGetNewestLease env.fsEnd interface with
      | .error e => (.error e, r.2)
      | .ok d => if d.isEmpty then (.error .invalidLease, r.2) else (.ok d, r.2)

/-- One poll cycle of the isc wait loop can kill: the pid file read
succeeds, its content parses as an int, and that pid's parent is 1. -/
def iscKillable (env : IscEnv) (i : Nat) : Bool :=
  match env.pidRead i with
  | none => false
  | some content =>
    match pyInt (pyStrip content) with
    | none => false
    | some pid => env.ppid pid = 1

/- ===== Dhcpcd.dhcp_discovery ===== -/

/-- Environment of one `Dhcpcd.dhcp_discovery` attempt: the main dhcpcd
spawn outcome, the outcome of the `get_newest_lease` dump-and-parse, the
`get_proc_pgid` collaborator (`0` models a falsy result), whether
`os.kill` on a given gid raises `ProcessLookupError`, the outcome of the
`dhcpcd ... -P` pid-file query, and the pid-file content seen at each
poll cycle. -/
structure DhcpcdEnv where
  spawn : Except Unit (String × String)
  leaseRes : Except DErr Dict
  pgid : Int → Int
  killRaises : Int → Bool
  pidFileCmd : Except Unit String
  pidRead : Nat → Option String

/-- The marker line dhcpcd prints when it daemonizes. -/
def forkedMarker : List Char := "forked to background, child pid ".data

/-- `out.split("\n")` reversed — the order the stdout scan walks. -/
def reverseLines (out : String) : List String :=
  ((splitOnChar '\n' out.data).map (fun l => (⟨l⟩ : String))).reverse

/-- The stdout scan of `Dhcpcd.dhcp_discovery`: walk the reversed output
lines; on a line containing the fork marker, parse the last
whitespace-token as the pid and kill its process group when it is
truthy; `ValueError` and `ProcessLookupError` are caught and the scan
continues.  Returns the trace of gids successfully killed (the scan
breaks at the first success). -/
def scanStdout (env : DhcpcdEnv) : List String → List Int
  | [] => []
  | line :: rest =>
    if containsSub forkedMarker line.data then
      match (pySplitWs line).getLast? with
      | none => scanStdout env rest
      | some t =>
        match pyInt t with
        | none => scanStdout env rest
        | some pid =>
          let g := env.pgid pid
          if g ≠ 0 then
            if env.killRaises g then scanStdout env rest else [g]
          else scanStdout env rest
    else scanStdout env rest

/-- The pid-file wait loop of `Dhcpcd.dhcp_discovery`: each cycle reads
the pid file (`FileNotFoundError`/`ValueError` caught, cycle repeats);
on a successful read the group of the parsed pid is killed when truthy
(an uncaught `ProcessLookupError` propagates) and the lease is returned;
when the budget runs out the lease is returned anyway. -/
def dhcpcdPoll (env : DhcpcdEnv) : Nat → Nat → List Int → Dict →
    Except DErr Dict × List Int
  | 0, _, ks, lease => (.ok lease, ks)
  | fuel + 1, i, ks, lease =>
    match env.pidRead i with
    | none => dhcpcdPoll env fuel (i + 1) ks lease
    | some content =>
      match pyInt (pyStrip content) with
      | none => dhcpcdPoll env fuel (i + 1) ks lease
      | some pid =>
        let g := env.pgid pid
        if g = 0 then (.ok lease, ks)
        else if env.killRaises g then (.error .processLookup, ks)
        else (.ok lease, ks ++ [g])

/-- `Dhcpcd.dhcp_discovery` after link-up: spawn dhcpcd (a
`ProcessExecutionError` becomes `NoDHCPLeaseError`), read the newest
lease (its errors propagate), raise `NoDHCPLeaseError` when the lease is
empty; otherwise scan stdout for the forked child pid, query the pid
file path (`ProcessExecutionError` again becomes `NoDHCPLeaseError`) and
run the pid-file wait loop.  The result pairs the outcome with the trace
of SIGKILLs sent. -/
def dhcpcdDiscovery (env : DhcpcdEnv) (_interface : String) :
    Except DErr Dict × List Int :=
  match env.spawn with
  | .error _ => (.error .noLease, [])
  | .ok (out, _err) =>
    match env.leaseRes with
    | .error e => (.error e, [])
    | .ok lease =>
      match lease with
      | [] => (.error .noLease, [])
      | _ :: _ =>
        let ks := scanStdout env (reverseLines out)
        match env.pidFileCmd with
        | .error _ => (.error .noLease, ks)
        | .ok _ => dhcpcdPoll env sleepCycles 0 ks lease

/-- A dhcpcd poll cycle reads a parsable pid. -/
def dhcpcdReads (env : DhcpcdEnv) (i : Nat) : Bool :=
  match env.pidRead i with
  | none => false
  | some content => (pyInt (pyStrip content)).isSome

/-- A dhcpcd poll cycle reads a parsable pid whose group is truthy and
whose kill succeeds. -/
def dhcpcdKillable (env : DhcpcdEnv) (i : Nat) : Bool :=
  match env.pidRead i with
  | none => false
  | some content =>
    match pyInt (pyStrip content) with
    | none => false
    | some pid => env.pgid pid ≠ 0 && !env.killRaises (env.pgid pid)

/- ===== Concrete instances used by witnesses and counterexamples ===== -/

/-- A lease-file content with two `lease` blocks, as the legacy dhclient
writes it. -/
def mkTwoBlocks (b1 b2 : String) : String :=
  "lease \x7b" ++ b1 ++ "\x7d\n" ++ "lease \x7b" ++ b2 ++ "\x7d\n"

/-- An isc discovery environment in which `wait_for_files` reports the
pid file missing: dhclient spawned fine but never produced artifacts. -/
def c1Env0 : IscEnv :=
  { spawn := .ok ("", "")
    missing := ["/run/dhclient.pid"]
    pidRead := fun _ => none
    ppid := fun _ => 0
    fsEnd := fun _ => none }

/-- An isc discovery environment whose first poll cycle reads a
daemonized pid. -/
def c1EnvI : IscEnv :=
  { spawn := .ok ("", "")
    missing := []
    pidRead := fun _ => some "4242"
    ppid := fun _ => 1
    fsEnd := fun _ => none }

/-- A dhcpcd discovery environment with a non-empty lease whose first
poll cycle reads a pid with a truthy process group. -/
def c1EnvD : DhcpcdEnv :=
  { spawn := .ok ("", "")
    leaseRes := .ok [("fixed-address", "192.0.2.10")]
    pgid := fun _ => 7
    killRaises := fun _ => false
    pidFileCmd := .ok "/run/dhcpcd-eth0.pid"
    pidRead := fun _ => some "77" }

/-- An isc discovery environment in which both artifact files stay
missing for the whole wait. -/
def c8Env : IscEnv :=
  { spawn := .ok ("out", "err")
    missing := ["/run/dhclient.pid", "/run/dhclient.lease"]
    pidRead := fun _ => none
    ppid := fun _ => 0
    fsEnd := fun _ => none }

/-- First lease block of the two-block witness file. -/
def c7B1 : String :=
  "\n  fixed-address 192.168.1.10;\n  option subnet-mask \"255.255.255.0\";\n"

/-- Second lease block of the two-block witness file. -/
def c7B2 : String :=
  "\n  fixed-address 192.168.1.77;\n  option routers 192.168.1.1;\n"

/-- Parsed form of `c7B1`. -/
def c7D1 : Dict :=
  [("fixed-address", "192.168.1.10"), ("subnet-mask", "255.255.255.0")]

/-- Parsed form of `c7B2`. -/
def c7D2 : Dict :=
  [("fixed-address", "192.168.1.77"), ("routers", "192.168.1.1")]

/-- A filesystem whose dhclient lease file holds the two-block content. -/
def c7Fs : String → Option String := fun p =>
  if p = iscLeasePath then some (mkTwoBlocks c7B1 c7B2) else none

/-- Canonical-form lease mapping used by the normalization witness. -/
def c5D : Dict :=
  [("fixed-address", "192.168.0.212"), ("subnet-mask", "255.255.240.0"),
   ("routers", "192.168.0.1")]

/- ===== Helper lemmas ===== -/

/-- `zip(l[::2], l[1::2])` pairs consecutive elements, dropping a
trailing unpaired element. -/
theorem zip_evens_odds : ∀ l : List String, (evens l).zip (odds l) = pairUp l
  | [] => rfl
  | [_] => rfl
  | a :: b :: rest => by
    have ih := zip_evens_odds rest
    cases rest with
    | nil => rfl
    | cons c r =>
      simp only [evens, odds, List.drop_succ_cons, List.drop_zero, pairUp,
        List.zip_cons_cons] at *
      rw [ih]

/-- A key without underscores is unchanged by the underscore rewrite. -/
theorem uh_id (s : String) (h : s.data.all (fun c => c ≠ '_') = true) :
    underscoreToHyphen s = s := by
  cases s with
  | mk l =>
    unfold underscoreToHyphen
    congr 1
    induction l with
    | nil => rfl
    | cons c t ih =>
      simp only [List.all_cons, Bool.and_eq_true] at h
      simp only [List.map_cons, List.cons.injEq]
      refine ⟨?_, ih h.2⟩
      have hc : ¬(c = '_') := by simpa using h.1
      simp [hc]

/-- `pyLookup` distributes over append. -/
theorem pyLookup_append (d1 d2 : Dict) (k : String) :
    pyLookup (d1 ++ d2) k =
      match pyLookup d1 k with
      | some v => some v
      | none => pyLookup d2 k := by
  induction d1 with
  | nil => rfl
  | cons kv t ih =>
    cases kv with
    | mk k0 v0 =>
      by_cases hk : k0 = k <;> simp [pyLookup, hk, ih]

/-- Inserting an absent key appends it. -/
theorem pyInsert_absent (d : Dict) (k v : String) (h : pyLookup d k = none) :
    pyInsert d k v = d ++ [(k, v)] := by
  induction d with
  | nil => rfl
  | cons kv t ih =>
    cases kv with
    | mk k0 v0 =>
      by_cases hk : k0 = k
      · simp [pyLookup, hk] at h
      · simp only [pyLookup, hk, if_false, if_neg hk] at h ⊢
        simp [pyInsert, hk, ih h]

/-- Folding `pyInsert` over pairs whose keys are fresh and mutually
distinct appends them in order. -/
theorem pyFromListAux_id : ∀ (t : List (String × String)) (d : Dict),
    (∀ kv ∈ t, pyLookup d kv.1 = none) → (t.map Prod.fst).Nodup →
    List.foldl (fun d kv => pyInsert d kv.1 kv.2) d t = d ++ t := by
  intro t
  induction t with
  | nil => intro d _ _; simp
  | cons kv t ih =>
    intro d hfresh hnd
    cases kv with
    | mk k v =>
      simp only [List.map_cons, List.nodup_cons, List.mem_map] at hnd
      have h0 : pyLookup d k = none := hfresh (k, v) (by simp)
      simp only [List.foldl_cons]
      rw [pyInsert_absent d k v h0]
      rw [ih (d ++ [(k, v)]) ?_ hnd.2]
      · simp
      · intro kv2 hm
        rw [pyLookup_append]
        have h2 : pyLookup d kv2.1 = none := hfresh kv2 (by simp [hm])
        have h3 : ¬(k = kv2.1) := fun he => hnd.1 ⟨kv2, hm, he.symm⟩
        simp [h2, pyLookup, h3]

/-- `dict(pairs)` is the identity on a mapping with distinct keys. -/
theorem pyFromList_id (d : Dict) (hnd : (d.map Prod.fst).Nodup) :
    pyFromList d = d := by
  unfold pyFromList
  rw [pyFromListAux_id d [] (fun kv _ => rfl) hnd]
  simp

/- ===== Claim C3 ===== -/

/-- Claim C3 (counterexample): on the odd-length token list
`["0.0.0.0/0", "10.0.0.1", "168.63.129.16/32"]` the pair grammar returns
one pair, not the empty list the claim requires for odd length. -/
theorem c3_counterexample :
    dhcpcdParseStaticRoutes "0.0.0.0/0 10.0.0.1 168.63.129.16/32" =
      [("0.0.0.0/0", "10.0.0.1")] ∧
    udhcpcParseStaticRoutes "0.0.0.0/0 10.0.0.1 168.63.129.16/32" ≠ [] := by
  exact ⟨rfl, by decide⟩

/-- Claim C3 (amended): for every input, both pair-grammar parsers return
the consecutive `(destination/prefix, gateway)` pairs of the
whitespace-split token list in input order, dropping a trailing unpaired
token; in particular an even token list of length `2n` yields its `n`
pairs and an empty token list yields `[]`. -/
theorem c3_amended (s : String) :
    dhcpcdParseStaticRoutes s = pairUp (pySplitWs s) ∧
    udhcpcParseStaticRoutes s = pairUp (pySplitWs s) := by
  have h : ∀ l : List String,
      (match l with
       | [] => ([] : List (String × String))
       | _ :: _ => (evens l).zip (odds l)) = pairUp l := by
    intro l
    cases l with
    | nil => rfl
    | cons a t => exact zip_evens_odds (a :: t)
  exact ⟨h (pySplitWs s), h (pySplitWs s)⟩

/- ===== Claim C5 ===== -/

/-- Claim C5 (counterexample): the canonical key `static_routes` —
itself the output of the rename step — contains an underscore, so a
second application of the dhcpcd key normalization rewrites it to
`static-routes`: normalization is not idempotent on its own output. -/
theorem c5_counterexample :
    dhcpcdNormalizeKeys
        (dhcpcdNormalizeKeys [("classless-static-routes", "0.0.0.0/0 10.0.0.1")]) ≠
      dhcpcdNormalizeKeys [("classless-static-routes", "0.0.0.0/0 10.0.0.1")] := by
  decide

/-- Claim C5 (amended): the dhcpcd key normalization is the identity on
every mapping with distinct keys none of which contains an underscore
and which contains neither alias key `ip-address` nor
`classless-static-routes`; the canonical key `static_routes` violates
the underscore condition, which is exactly what the counterexample
exploits. -/
theorem c5_amended (d : Dict)
    (hnd : (d.map Prod.fst).Nodup)
    (hu : ∀ kv ∈ d, kv.1.data.all (fun c => c ≠ '_') = true)
    (hip : pyLookup d "ip-address" = none)
    (hcs : pyLookup d "classless-static-routes" = none) :
    dhcpcdNormalizeKeys d = d := by
  unfold dhcpcdNormalizeKeys
  have hmap : d.map (fun kv => (underscoreToHyphen kv.1, kv.2)) = d := by
    have : ∀ kv ∈ d, (underscoreToHyphen kv.1, kv.2) = kv := by
      intro kv hm
      cases kv with
      | mk k v => simp [uh_id k (hu (k, v) hm)]
    calc d.map (fun kv => (underscoreToHyphen kv.1, kv.2))
        = d.map id := List.map_congr_left this
      _ = d := List.map_id d
  rw [hmap, pyFromList_id d hnd]
  simp only [pyRename, hip, hcs]

/-- Claim C5 (witness): the amended theorem applied to a concrete
canonical mapping. -/
theorem c5_witness :
    (c5D.map Prod.fst).Nodup ∧ pyLookup c5D "ip-address" = none ∧
    dhcpcdNormalizeKeys c5D = c5D :=
  ⟨by decide, by decide,
    c5_amended c5D (by decide) (by decide) (by decide) (by decide)⟩

/- ===== Claim C6 ===== -/

/-- Claim C6: the RFC-3442 worked example.  The token string
`32,169,254,169,254,130,56,248,255,0,130,56,240,1` parses to a /32 host
route (prefix 25–32: four destination octets then four gateway octets)
followed by a default route (prefix 0: no destination octets then four
gateway octets). -/
theorem c6_theorem :
    iscParseStaticRoutes "32,169,254,169,254,130,56,248,255,0,130,56,240,1" =
      .ok [("169.254.169.254/32", "130.56.248.255"),
           ("0.0.0.0/0", "130.56.240.1")] := by
  rfl

/- ===== Claim C9 ===== -/

/-- Claim C9 (evaluation at the failing input): starting from the state
where the pid file is absent but a stale lease file exists, the prepare
step of `IscDhclient.dhcp_discovery` leaves the stale lease file in
place, because the single `suppress(FileNotFoundError)` block aborts at
the failed pid-file remove before reaching the lease-file remove.  When
the pid file exists, both artifacts are removed as intended. -/
theorem c9_theorem :
    iscPrepare { pidFile := false, leaseFile := true } =
      { pidFile := false, leaseFile := true } ∧
    iscPrepare { pidFile := true, leaseFile := true } =
      { pidFile := false, leaseFile := false } := by
  exact ⟨rfl, rfl⟩

/- ===== Claim C10 ===== -/

/-- Claim C10: the interface argument has no effect on
`IscDhclient.get_newest_lease` and `Udhcpc.get_newest_lease`: for any
fixed filesystem / lease-file state, any two interface names yield the
same result. -/
theorem c10_theorem :
    (∀ (fs : String → Option String) (i1 i2 : String),
      iscGetNewestLease fs i1 = iscGetNewestLease fs i2) ∧
    (∀ (lf : Option String) (fs : String → Option String)
        (pj : String → Except PyErr Dict) (i1 i2 : String),
      udhcpcGetNewestLease lf fs pj i1 = udhcpcGetNewestLease lf fs pj i2) :=
  ⟨fun _ _ _ => rfl, fun _ _ _ _ _ => rfl⟩

/- ===== Claim C2 ===== -/

/-- When every token parses as an int, the route-cursor loop cannot
raise: truncated and out-of-range routes return the accumulated
prefix. -/
theorem iscRouteLoop_ok : ∀ (fuel : Nat) (toks : List String)
    (acc : List (String × String)),
    (∀ t ∈ toks, (pyInt t).isSome = true) →
    ∃ l, iscRouteLoop fuel toks acc = .ok l := by
  intro fuel
  induction fuel with
  | zero => intro toks acc _; exact ⟨acc, rfl⟩
  | succ fuel ih =>
    intro toks acc h
    match toks with
    | [] => exact ⟨acc, rfl⟩
    | tok :: rest =>
      have hint : (pyInt tok).isSome = true := h tok (by simp)
      obtain ⟨n, hn⟩ : ∃ n, pyInt tok = some n := by
        cases he : pyInt tok with
        | none => rw [he] at hint; simp at hint
        | some n => exact ⟨n, rfl⟩
      have hrest : ∀ k : Nat, ∀ t ∈ rest.drop k, (pyInt t).isSome = true :=
        fun k t ht => h t (List.mem_cons_of_mem _ (List.drop_subset k rest ht))
      simp only [iscRouteLoop, hn]
      split_ifs <;>
        first
        | exact ⟨acc, rfl⟩
        | exact ih _ _ (hrest _)

/-- Claim C2 (counterexample): `IscDhclient.parse_static_routes` raises
`ValueError` (it does not return) on the input `"foo"`, whose single
token is non-numeric: `int(tok)` on the prefix-length token is
unguarded. -/
theorem c2_counterexample :
    iscParseStaticRoutes "foo" = .error .valueError := by
  rfl

/-- Claim C2 (amended): on every input whose tokens all parse as
integers, `parse_static_routes` terminates without raising and returns
the prefix of routes parsed before the first malformed (truncated or
out-of-range) token — e.g. the truncated input
`32,169,254,169,254,130,56,248,255,24,100` yields exactly the first
route.  A non-numeric token reached as a prefix length raises
`ValueError`. -/
theorem c2_amended :
    (∀ s : String, (∀ t ∈ iscTokens s, (pyInt t).isSome = true) →
      ∃ l, iscParseStaticRoutes s = .ok l) ∧
    iscParseStaticRoutes "32,169,254,169,254,130,56,248,255,24,100" =
      .ok [("169.254.169.254/32", "130.56.248.255")] := by
  constructor
  · intro s h
    exact iscRouteLoop_ok (iscTokens s).length (iscTokens s) [] h
  · rfl

/-- Claim C2 (witness): the amended theorem applied to the documented
dhclient-format input, whose tokens are all numeric. -/
theorem c2_witness :
    (∀ t ∈ iscTokens "24.191.168.128 192.168.128.1,0 192.168.128.1",
      (pyInt t).isSome = true) ∧
    ∃ l, iscParseStaticRoutes "24.191.168.128 192.168.128.1,0 192.168.128.1" =
      .ok l :=
  ⟨by decide, c2_amended.1 "24.191.168.128 192.168.128.1,0 192.168.128.1"
    (by decide)⟩

/- ===== Claim C4 ===== -/

/-- Claim C4 (counterexample): in the no-lease state the claim fails for
two of the three drivers.  `Dhcpcd.get_newest_lease` raises
`NoDHCPLeaseError` when `dhcpcd --dumplease` fails, and
`Udhcpc.get_newest_lease` raises (`TypeError` via
`load_file(None)`) when no discovery has set a lease file — neither
returns an empty lease. -/
theorem c4_counterexample :
    dhcpcdGetNewestLease (.error ()) "eth0" = .error .noLease ∧
    udhcpcGetNewestLease none (fun _ => none) (fun _ => .error .valueError)
      "eth0" = .error (.pyErr .typeError) :=
  ⟨rfl, rfl⟩

/-- Claim C4 (amended): only `IscDhclient.get_newest_lease` returns an
empty lease without raising when no lease exists (its lease-file read
suppresses `FileNotFoundError`); `Dhcpcd.get_newest_lease` raises
`NoDHCPLeaseError` when the dump command fails, and
`Udhcpc.get_newest_lease` raises `TypeError` when no discovery ran
(lease file unset) or `FileNotFoundError` when the set file is
absent. -/
theorem c4_amended :
    (∀ (fs : String → Option String) (i : String),
      fs iscLeasePath = none → iscGetNewestLease fs i = .ok []) ∧
    (∀ i : String, dhcpcdGetNewestLease (.error ()) i = .error .noLease) ∧
    (∀ (fs : String → Option String) (pj : String → Except PyErr Dict)
        (i : String),
      udhcpcGetNewestLease none fs pj i = .error (.pyErr .typeError)) ∧
    (∀ (p : String) (fs : String → Option String)
        (pj : String → Except PyErr Dict) (i : String), fs p = none →
      udhcpcGetNewestLease (some p) fs pj i = .error (.pyErr .fileNotFound)) := by
  refine ⟨?_, fun _ => rfl, fun _ _ _ => rfl, ?_⟩
  · intro fs i h
    unfold iscGetNewestLease
    rw [h]
  · intro p fs pj i h
    simp only [udhcpcGetNewestLease, h]

/-- Claim C4 (witness): the amended theorem applied to an empty
filesystem. -/
theorem c4_witness :
    (fun (_ : String) => (none : Option String)) iscLeasePath = none ∧
    iscGetNewestLease (fun _ => none) "eth9" = .ok [] ∧
    udhcpcGetNewestLease (some "/tmp/eth9.lease.json") (fun _ => none)
      (fun _ => .error .valueError) "eth9" = .error (.pyErr .fileNotFound) :=
  ⟨rfl, c4_amended.1 (fun _ => none) "eth9" rfl,
    c4_amended.2.2.2 "/tmp/eth9.lease.json" (fun _ => none)
      (fun _ => .error .valueError) "eth9" rfl⟩

/- ===== Claim C8 ===== -/

/-- Claim C8: when dhclient spawns and exits successfully but
`wait_for_files` reports that the pid file and lease file did not both
appear within the deadline, `IscDhclient.dhcp_discovery` returns the
empty lease mapping without raising (and, incidentally, without sending
any kill). -/
theorem c8_theorem (env : IscEnv) (i : String) (o : String × String)
    (hs : env.spawn = .ok o) (hm : env.missing ≠ []) :
    iscDhcpDiscovery env i = (.ok [], []) := by
  unfold iscDhcpDiscovery
  rw [hs]
  cases h2 : env.missing with
  | nil => exact absurd h2 hm
  | cons a t => rfl

/-- Claim C8 (witness): the theorem applied to a concrete environment in
which both artifact files stay missing. -/
theorem c8_witness :
    c8Env.missing ≠ [] ∧ iscDhcpDiscovery c8Env "eth1" = (.ok [], []) :=
  ⟨by decide, c8_theorem c8Env "eth1" ("out", "err") rfl (by decide)⟩

/- ===== Claim C1 ===== -/

/-- Claim C1 (counterexample): a discovery attempt that spawned dhclient
successfully but whose artifacts never appeared returns an empty lease
with an empty kill trace — no kill signal of any kind is sent on this
path, contradicting the unconditional-kill claim. -/
theorem c1_counterexample :
    c1Env0.spawn = .ok ("", "") ∧
    iscDhcpDiscovery c1Env0 "eth0" = (.ok [], []) :=
  ⟨rfl, rfl⟩

/-- If some poll cycle within the budget reads a daemonized pid, the isc
wait loop sends a kill. -/
theorem iscWaitLoop_kills (env : IscEnv) : ∀ (fuel i : Nat),
    (∃ k, k < fuel ∧ iscKillable env (i + k) = true) →
    (iscWaitLoop env fuel i).2 ≠ [] := by
  intro fuel
  induction fuel with
  | zero => intro i ⟨k, hk, _⟩; omega
  | succ fuel ih =>
    intro i ⟨k, hk, hkill⟩
    cases hr : env.pidRead i with
    | none =>
      have hk0 : k ≠ 0 := by
        intro h0
        rw [h0] at hkill
        simp only [Nat.add_zero] at hkill
        simp only [iscKillable, hr] at hkill
        exact Bool.false_ne_true hkill
      obtain ⟨k2, rfl⟩ : ∃ k2, k = k2 + 1 := ⟨k - 1, by omega⟩
      simp only [iscWaitLoop, hr]
      exact ih (i + 1) ⟨k2, by omega, by
        have : i + 1 + k2 = i + (k2 + 1) := by omega
        rw [this]; exact hkill⟩
    | some content =>
      cases hp : pyInt (pyStrip content) with
      | none =>
        have hk0 : k ≠ 0 := by
          intro h0
          rw [h0] at hkill
          simp only [Nat.add_zero] at hkill
          simp only [iscKillable, hr, hp] at hkill
          exact Bool.false_ne_true hkill
        obtain ⟨k2, rfl⟩ : ∃ k2, k = k2 + 1 := ⟨k - 1, by omega⟩
        simp only [iscWaitLoop, hr, hp]
        exact ih (i + 1) ⟨k2, by omega, by
          have : i + 1 + k2 = i + (k2 + 1) := by omega
          rw [this]; exact hkill⟩
      | some pid =>
        by_cases hpp : env.ppid pid = 1
        · simp [iscWaitLoop, hr, hp, hpp]
        · have hk0 : k ≠ 0 := by
            intro h0
            rw [h0] at hkill
            simp only [Nat.add_zero] at hkill
            simp only [iscKillable, hr, hp] at hkill
            simp [hpp] at hkill
          obtain ⟨k2, rfl⟩ : ∃ k2, k = k2 + 1 := ⟨k - 1, by omega⟩
          simp only [iscWaitLoop, hr, hp, hpp, if_false]
          exact ih (i + 1) ⟨k2, by omega, by
            have : i + 1 + k2 = i + (k2 + 1) := by omega
            rw [this]; exact hkill⟩

/-- If the first successful pid-file read within the budget yields a pid
with a truthy group whose kill succeeds, the dhcpcd wait loop appends a
kill to the trace. -/
theorem dhcpcdPoll_kills (env : DhcpcdEnv) : ∀ (fuel i : Nat) (ks : List Int)
    (lease : Dict),
    (∃ k, k < fuel ∧ (∀ j, j < k → dhcpcdReads env (i + j) = false) ∧
      dhcpcdKillable env (i + k) = true) →
    (dhcpcdPoll env fuel i ks lease).2 ≠ [] := by
  intro fuel
  induction fuel with
  | zero => intro i ks lease ⟨k, hk, _⟩; omega
  | succ fuel ih =>
    intro i ks lease ⟨k, hk, hnone, hkill⟩
    cases hr : env.pidRead i with
    | none =>
      have hk0 : k ≠ 0 := by
        intro h0
        rw [h0] at hkill
        simp only [Nat.add_zero] at hkill
        simp only [dhcpcdKillable, hr] at hkill
        exact Bool.false_ne_true hkill
      obtain ⟨k2, rfl⟩ : ∃ k2, k = k2 + 1 := ⟨k - 1, by omega⟩
      simp only [dhcpcdPoll, hr]
      refine ih (i + 1) ks lease ⟨k2, by omega, ?_, ?_⟩
      · intro j hj
        have : i + 1 + j = i + (j + 1) := by omega
        rw [this]; exact hnone (j + 1) (by omega)
      · have : i + 1 + k2 = i + (k2 + 1) := by omega
        rw [this]; exact hkill
    | some content =>
      cases hp : pyInt (pyStrip content) with
      | none =>
        have hk0 : k ≠ 0 := by
          intro h0
          rw [h0] at hkill
          simp only [Nat.add_zero] at hkill
          simp only [dhcpcdKillable, hr, hp] at hkill
          exact Bool.false_ne_true hkill
        obtain ⟨k2, rfl⟩ : ∃ k2, k = k2 + 1 := ⟨k - 1, by omega⟩
        simp only [dhcpcdPoll, hr, hp]
        refine ih (i + 1) ks lease ⟨k2, by omega, ?_, ?_⟩
        · intro j hj
          have : i + 1 + j = i + (j + 1) := by omega
          rw [this]; exact hnone (j + 1) (by omega)
        · have : i + 1 + k2 = i + (k2 + 1) := by omega
          rw [this]; exact hkill
      | some pid =>
        have hk0 : k = 0 := by
          by_contra hne
          have := hnone 0 (by omega)
          simp only [Nat.add_zero] at this
          simp only [dhcpcdReads, hr, hp] at this
          simp at this
        rw [hk0] at hkill
        simp only [Nat.add_zero] at hkill
        simp only [dhcpcdKillable, hr, hp] at hkill
        simp only [Bool.and_eq_true, bne_iff_ne, ne_eq, decide_eq_true_eq,
          Bool.not_eq_true'] at hkill
        simp [dhcpcdPoll, hr, hp, hkill.1, hkill.2]

/-- Claim C1 (amended): a SIGKILL is guaranteed only on the paths that
resolve a target process.  For `IscDhclient.dhcp_discovery`: whenever
the spawn succeeded, both artifact files appeared, and some poll cycle
within the budget reads a pid whose parent is init, a kill is sent
before the call returns — whether it then returns a lease or raises.
For `Dhcpcd.dhcp_discovery`: whenever the spawn succeeded, a non-empty
lease was read, the pid-file path query succeeded, and the first
successful pid-file read within the budget yields a pid with a truthy
process group whose kill does not itself fail, a kill is sent before the
call returns.  On the remaining paths (spawn failure, artifact timeout,
no pid resolved, empty lease) the call returns or raises without
sending any kill, as the counterexample shows. -/
theorem c1_amended :
    (∀ (env : IscEnv) (s : String) (o : String × String),
      env.spawn = .ok o → env.missing = [] →
      (∃ k, k < sleepCycles ∧ iscKillable env k = true) →
      (iscDhcpDiscovery env s).2 ≠ []) ∧
    (∀ (env : DhcpcdEnv) (s : String) (o : String × String) (lease : Dict),
      env.spawn = .ok o → env.leaseRes = .ok lease → lease ≠ [] →
      (∃ pf, env.pidFileCmd = .ok pf) →
      (∃ k, k < sleepCycles ∧ (∀ j, j < k → dhcpcdReads env j = false) ∧
        dhcpcdKillable env k = true) →
      (dhcpcdDiscovery env s).2 ≠ []) := by
  constructor
  · intro env s o hs hm ⟨k, hk, hkill⟩
    have hloop : (iscWaitLoop env sleepCycles 0).2 ≠ [] :=
      iscWaitLoop_kills env sleepCycles 0 ⟨k, hk, by simpa using hkill⟩
    unfold iscDhcpDiscovery
    rw [hs, hm]
    cases hlease : iscGetNewestLease env.fsEnd s with
    | error e => simpa using hloop
    | ok d =>
      by_cases hd : d.isEmpty <;> simp [hd] <;> simpa using hloop
  · intro env s o lease hs hl hne ⟨pf, hpf⟩ ⟨k, hk, hnone, hkill⟩
    unfold dhcpcdDiscovery
    rw [hs]
    cases o with
    | mk out err =>
      rw [hl]
      cases lease with
      | nil => exact absurd rfl hne
      | cons kv rest =>
        rw [hpf]
        exact dhcpcdPoll_kills env sleepCycles 0 _ _
          ⟨k, hk, by simpa using hnone, by simpa using hkill⟩

/-- Claim C1 (witness): the amended theorem applied to concrete
environments whose first poll cycle resolves a killable pid, for both
drivers. -/
theorem c1_witness :
    iscKillable c1EnvI 0 = true ∧
    (iscDhcpDiscovery c1EnvI "eth0").2 ≠ [] ∧
    (dhcpcdDiscovery c1EnvD "eth0").2 ≠ [] :=
  ⟨by decide,
    c1_amended.1 c1EnvI "eth0" ("", "") rfl rfl ⟨0, by decide, by decide⟩,
    c1_amended.2 c1EnvD "eth0" ("", "") [("fixed-address", "192.0.2.10")]
      rfl rfl (by decide) ⟨"/run/dhcpcd-eth0.pid", rfl⟩
      ⟨0, by decide, fun j hj => absurd hj (by omega), by decide⟩⟩

/- ===== Claim C7 ===== -/

/-- A list is a prefix of itself followed by anything. -/
theorem isPre_append_self : ∀ (p l : List Char), isPre p (p ++ l) = true := by
  intro p
  induction p with
  | nil => intro l; rfl
  | cons a t ih => intro l; simp [isPre, ih]

/-- A successful prefix test puts the first occurrence at index 0. -/
theorem findSub_of_isPre (pat l : List Char) (h : isPre pat l = true) :
    findSub pat l = some 0 := by
  cases l with
  | nil => simp [findSub, h]
  | cons c t => simp [findSub, h]

/-- String append acts as list append on the character data. -/
theorem str_data_append : ∀ (s t : String), (s ++ t).data = s.data ++ t.data :=
  fun ⟨_⟩ ⟨_⟩ => rfl

/-- If the footer pattern does not occur in `b`, its first occurrence in
`b` followed by a footer is exactly at the end of `b` (the footer
`}\n` cannot straddle the boundary because its two characters differ). -/
theorem footer_find : ∀ (b rest : List Char), findSub footerL b = none →
    findSub footerL (b ++ '\x7d' :: '\n' :: rest) = some b.length := by
  intro b
  induction b with
  | nil =>
    intro rest _
    simp [findSub, isPre, footerL]
  | cons c t ih =>
    intro rest h
    have hsplit : isPre footerL (c :: t) = false ∧ findSub footerL t = none := by
      rw [findSub] at h
      by_cases hp : isPre footerL (c :: t) = true
      · simp [hp] at h
      · refine ⟨by simpa using hp, ?_⟩
        simp only [hp, if_false] at h
        simpa using h
    have hpre : isPre footerL (c :: (t ++ '\x7d' :: '\n' :: rest)) = false := by
      cases t with
      | nil =>
        by_cases hc : c = '\x7d' <;> simp [isPre, footerL, hc]
      | cons d t2 =>
        have := hsplit.1
        by_cases hc : c = '\x7d' <;> by_cases hd : d = '\n' <;>
          simp [isPre, footerL, hc, hd] at this ⊢ <;> exact this
    simp only [List.cons_append, findSub, List.append_eq, hpre, if_false,
      ih rest hsplit.2, Option.map_some', List.length_cons]
    simp

/-- Dropping a prefix plus `k` equals dropping `k` from the suffix. -/
theorem drop_len_plus : ∀ (l1 l2 : List Char) (k : Nat),
    (l1 ++ l2).drop (l1.length + k) = l2.drop k := by
  intro l1
  induction l1 with
  | nil => intro l2 k; simp
  | cons a t ih =>
    intro l2 k
    have : (a :: t).length + k = (t.length + k) + 1 := by
      simp only [List.length_cons]; omega
    rw [this, List.cons_append, List.drop_succ_cons, ih]

/-- The scanner returns nothing on empty content. -/
theorem scan_nil : ∀ fuel, scanBlocksAux fuel [] = [] := by
  intro fuel
  cases fuel with
  | zero => rfl
  | succ fuel => simp [scanBlocksAux, findSub, isPre, headerL]

/-- One scanner step: content starting with a header, a footer-free
block and a footer yields that block and continues after the footer. -/
theorem scan_step (fuel : Nat) (b rest : List Char)
    (hb : findSub footerL b = none) :
    scanBlocksAux (fuel + 1) (headerL ++ (b ++ '\x7d' :: '\n' :: rest)) =
      b :: scanBlocksAux fuel rest := by
  have hfind : findSub headerL (headerL ++ (b ++ '\x7d' :: '\n' :: rest)) = some 0 :=
    findSub_of_isPre _ _ (isPre_append_self _ _)
  have hdrop : (headerL ++ (b ++ '\x7d' :: '\n' :: rest)).drop (0 + headerL.length) =
      b ++ '\x7d' :: '\n' :: rest := by
    rw [Nat.zero_add]
    have h0 := drop_len_plus headerL (b ++ '\x7d' :: '\n' :: rest) 0
    rw [Nat.add_zero] at h0
    rw [h0, List.drop_zero]
  have hfoot : findSub footerL (b ++ '\x7d' :: '\n' :: rest) = some b.length :=
    footer_find b rest hb
  have htake : (b ++ '\x7d' :: '\n' :: rest).take b.length = b := List.take_left b _
  have hdrop2 : (b ++ '\x7d' :: '\n' :: rest).drop (b.length + footerL.length) =
      rest := by
    have h2 : footerL.length = 2 := rfl
    rw [h2, drop_len_plus b ('\x7d' :: '\n' :: rest) 2]
    rfl
  simp only [scanBlocksAux, hfind, hdrop, hfoot, htake, hdrop2]

/-- Claim C7: `parse_leases("")` is the empty lease list; and for a
lease file holding two `lease` blocks (each free of the terminator
`\x7d`+newline, so each is one regex match), `get_newest_lease` returns
the parsed mapping of the last block in the file. -/
theorem c7_theorem :
    parseLeases "" = .ok [] ∧
    ∀ (b1 b2 : String) (d1 d2 : Dict) (fs : String → Option String)
      (i : String),
      findSub footerL b1.data = none → findSub footerL b2.data = none →
      parseBlockL b1.data = .ok d1 → parseBlockL b2.data = .ok d2 →
      fs iscLeasePath = some (mkTwoBlocks b1 b2) →
      iscGetNewestLease fs i = .ok d2 := by
  constructor
  · rfl
  · intro b1 b2 d1 d2 fs i h1 h2 hp1 hp2 hfs
    have hh : "lease \x7b".data = headerL := rfl
    have hf : "\x7d\n".data = '\x7d' :: '\n' :: [] := rfl
    have hdata : (mkTwoBlocks b1 b2).data =
        headerL ++ (b1.data ++ '\x7d' :: '\n' ::
          (headerL ++ (b2.data ++ '\x7d' :: '\n' :: []))) := by
      simp only [mkTwoBlocks, str_data_append, hh, hf, List.append_assoc,
        List.cons_append, List.nil_append]
      rfl
    have h7 : headerL.length = 7 := rfl
    have hscan : scanBlocks (mkTwoBlocks b1 b2).data = [b1.data, b2.data] := by
      rw [scanBlocks, hdata]
      have hlen : (headerL ++ (b1.data ++ '\x7d' :: '\n' ::
          (headerL ++ (b2.data ++ '\x7d' :: '\n' :: [])))).length =
          (b1.data.length + b2.data.length + 17) + 1 := by
        simp [List.length_append, h7]
        omega
      rw [hlen, scan_step _ _ _ h1]
      have h16 : b1.data.length + b2.data.length + 17 =
          (b1.data.length + b2.data.length + 16) + 1 := by omega
      rw [h16, scan_step _ _ _ h2, scan_nil]
    have hne : (mkTwoBlocks b1 b2).data.isEmpty = false := by
      rw [hdata]
      rfl
    have hparse : parseLeases (mkTwoBlocks b1 b2) = .ok [d1, d2] := by
      unfold parseLeases
      rw [hne]
      simp only [Bool.false_eq_true, if_false, hscan, mapExceptBlocks, hp1, hp2]
    unfold iscGetNewestLease
    rw [hfs]
    simp only [hne, Bool.false_eq_true, if_false, hparse]
    rfl

/-- Claim C7 (witness): the theorem applied to a concrete two-block
lease file, with quote stripping and `option `-prefix stripping visible
in the parsed blocks. -/
theorem c7_witness :
    findSub footerL c7B1.data = none ∧
    parseBlockL c7B1.data = .ok c7D1 ∧ parseBlockL c7B2.data = .ok c7D2 ∧
    iscGetNewestLease c7Fs "eth0" = .ok c7D2 :=
  ⟨rfl, rfl, rfl,
    c7_theorem.2 c7B1 c7B2 c7D1 c7D2 c7Fs "eth0" rfl rfl rfl rfl rfl⟩
